import Mathlib

/-
Verification of the volume-pairing, phase-encoding reconciliation and
recombination logic of qsiprep's `dwipreproc` script
(src/qsiprep/interfaces/dwipreproc.py).

The Python floats are embedded as exact rationals (ℚ); the literals
0.999, 10.0, 5e-3, 0.5 of the source become 999/1000, 10, 5/1000, 1/2.
Python lists indexed by volume number become functions ℕ → row, and the
in-place integer array `volume_matchings` becomes a function ℕ → ℕ with
pointwise update.  `math.sqrt` is an external floating-point routine; it
is embedded as an explicit function parameter `sqrt : ℚ → ℚ`.
-/

namespace Dwipreproc

/-- Row of the diffusion gradient table: direction (gx, gy, gz) and b-value,
as in `grad = dwi_header.keyval()['dw_scheme']` (dwipreproc.py line 317). -/
structure GradRow where
  gx : ℚ
  gy : ℚ
  gz : ℚ
  b : ℚ
  deriving DecidableEq

/-- Python truthiness test `any([val for val in one[0:3]])` of dwipreproc.py
lines 431/432/437: the direction part of a gradient row is nonzero. -/
def GradRow.dirNonzero (g : GradRow) : Prop :=
  g.gx ≠ 0 ∨ g.gy ≠ 0 ∨ g.gz ≠ 0

instance (g : GradRow) : Decidable g.dirNonzero := by
  unfold GradRow.dirNonzero; infer_instance

/-- Dot product of the direction parts of two gradient rows
(dwipreproc.py line 434). -/
def dotDir (one two : GradRow) : ℚ :=
  one.gx * two.gx + one.gy * two.gy + one.gz * two.gz

/-- Embedding of `grads_match` (dwipreproc.py lines 425-442).  The source
compares the raw dot product of the stored directions against 0.999 and the
b-value difference against 10.0; zero direction vectors only match other
zero direction vectors. -/
def grads_match (one two : GradRow) : Bool :=
  if one.dirNonzero then
    if ¬ two.dirNonzero then false
    else if |dotDir one two| < 999/1000 then false
    else if |one.b - two.b| > 10 then false
    else true
  else if two.dirNonzero then false
  else if |one.b - two.b| > 10 then false
  else true

/-- Characterization of `grads_match`: true exactly when the b-values differ
by at most 10 and either both directions are zero, or both are nonzero with
the magnitude of the raw (unnormalized) dot product at least 0.999. -/
theorem grads_match_eq_true_iff (one two : GradRow) :
    grads_match one two = true ↔
      (|one.b - two.b| ≤ 10 ∧
        ((¬ one.dirNonzero ∧ ¬ two.dirNonzero) ∨
         (one.dirNonzero ∧ two.dirNonzero ∧ 999/1000 ≤ |dotDir one two|))) := by
  unfold grads_match
  split_ifs with h1 h2 h3 h4 h5 h6 <;> simp_all

/-- Squared-norm of the direction part of a gradient row; used to state the
normalized-dot-product reading of the specification without square roots. -/
def dirNormSq (g : GradRow) : ℚ :=
  g.gx * g.gx + g.gy * g.gy + g.gz * g.gz

/-- C2's reading of the specification of `grads_match`, stated verbatim from
the claim: the b-values differ by at most 10 and the directions are
compatible, where compatible means both zero, or both nonzero with the
magnitude of the dot product of the directions AFTER NORMALIZATION to unit
length at least 0.999.  The normalized condition |dot|/(norm1*norm2) ≥ 0.999
is stated equivalently in squared form to remain inside ℚ. -/
def grads_match_claim (one two : GradRow) : Prop :=
  |one.b - two.b| ≤ 10 ∧
    ((¬ one.dirNonzero ∧ ¬ two.dirNonzero) ∨
     (one.dirNonzero ∧ two.dirNonzero ∧
       (999/1000) * (999/1000) * dirNormSq one * dirNormSq two ≤
         dotDir one two * dotDir one two))

instance (one two : GradRow) : Decidable (grads_match_claim one two) := by
  unfold grads_match_claim; infer_instance

end Dwipreproc

namespace Dwipreproc

/-- C2: grads_match(one, two) is NOT equivalent to the claimed condition with
the dot product normalized to unit length: on the concrete pair of identical
rows with direction (1/2, 0, 0) and b-value 1000, the normalized dot product
is 1 (≥ 0.999) and the b-values are equal, so the claim predicts a match, but
the source compares the RAW dot product 1/4 against 0.999 and returns false. -/
theorem C2_counterexample_raw_dot :
    grads_match ⟨1/2, 0, 0, 1000⟩ ⟨1/2, 0, 0, 1000⟩ = false ∧
      grads_match_claim ⟨1/2, 0, 0, 1000⟩ ⟨1/2, 0, 0, 1000⟩ := by
  constructor
  · norm_num [grads_match, dotDir, GradRow.dirNonzero, abs_of_pos]
  · norm_num [grads_match_claim, dotDir, dirNormSq, GradRow.dirNonzero]

/-- C2 (amended): grads_match(one, two) returns true if and only if
|one.b - two.b| ≤ 10 and the directions are compatible, where compatible
means both direction vectors are all-zero, or both nonzero with the
magnitude of the RAW dot product of the two stored directions (without any
normalization) at least 0.999; in particular, when exactly one direction is
all-zero, grads_match returns false. -/
theorem C2_grads_match_characterization (one two : GradRow) :
    grads_match one two = true ↔
      (|one.b - two.b| ≤ 10 ∧
        ((¬ one.dirNonzero ∧ ¬ two.dirNonzero) ∨
         (one.dirNonzero ∧ two.dirNonzero ∧ 999/1000 ≤ |dotDir one two|))) :=
  grads_match_eq_true_iff one two

/-- C8: whenever the b-values of two gradient rows differ by more than 10,
grads_match returns false, whatever the two direction vectors are. -/
theorem C8_bval_gap_never_matches (one two : GradRow)
    (h : 10 < |one.b - two.b|) : grads_match one two = false := by
  rcases Bool.eq_false_or_eq_true (grads_match one two) with ht | hf
  · exact absurd ((grads_match_eq_true_iff one two).mp ht).1 (by linarith)
  · exact hf

/-- C8 witness: concrete rows with b-values 0 and 20. -/
theorem C8_bval_gap_never_matches_witness :
    10 < |((⟨0, 0, 0, 0⟩ : GradRow)).b - ((⟨0, 0, 0, 20⟩ : GradRow)).b| ∧
      grads_match ⟨0, 0, 0, 0⟩ ⟨0, 0, 0, 20⟩ = false :=
  ⟨by norm_num, C8_bval_gap_never_matches _ _ (by norm_num)⟩

/-- C10: grads_match is symmetric in its two arguments. -/
theorem C10_grads_match_symm (one two : GradRow) :
    grads_match one two = grads_match two one := by
  rw [Bool.eq_iff_iff, grads_match_eq_true_iff, grads_match_eq_true_iff]
  have hdot : dotDir one two = dotDir two one := by unfold dotDir; ring
  rw [hdot, abs_sub_comm one.b two.b]
  tauto

end Dwipreproc

namespace Dwipreproc

/-- Row of a phase-encoding scheme: direction (dx, dy, dz) and total readout
time, one row per DWI volume (spec section 3; dwipreproc.py builds these as
4-element lists). -/
structure PERow where
  dx : ℚ
  dy : ℚ
  dz : ℚ
  trt : ℚ
  deriving DecidableEq

/-- Python truthiness test
`not any(dwi_pe_scheme[index1][i] + dwi_pe_scheme[index2][i] for i in range(0, 3))`
of dwipreproc.py lines 1134-1135: the per-axis phase-encoding direction
components of the two volumes sum to zero on each of the three axes. -/
def peSumZero (p q : PERow) : Bool :=
  if p.dx + q.dx ≠ 0 ∨ p.dy + q.dy ≠ 0 ∨ p.dz + q.dz ≠ 0 then false else true

/-- Combined per-pair admission test of the post-eddy matching loop
(dwipreproc.py lines 1133-1136): opposite phase encoding and matching
gradients. -/
def postEddyMatch (pe : ℕ → PERow) (grad : ℕ → GradRow) (i1 i2 : ℕ) : Bool :=
  peSumZero (pe i1) (pe i2) && grads_match (grad i1) (grad i2)

/-- State of the matching loops: the `volume_matchings` integer array
(initialized to n everywhere, entry i set to its partner once i is paired)
embedded as a function, and the accumulated list of pairs. -/
structure MatchState where
  vm : ℕ → ℕ
  pairs : List (ℕ × ℕ)

/-- Inner scan of the matching loops (dwipreproc.py lines 1131-1144 and
505-514): walk the candidate index list in order and return the first index
that is still unpaired (vm i2 = n) and satisfies the admission test. -/
def firstUnpairedMatch (n : ℕ) (matchFn : ℕ → ℕ → Bool) (vm : ℕ → ℕ)
    (i1 : ℕ) : List ℕ → Option ℕ
  | [] => none
  | i2 :: rest =>
    if vm i2 = n then
      if matchFn i1 i2 then some i2
      else firstUnpairedMatch n matchFn vm i1 rest
    else firstUnpairedMatch n matchFn vm i1 rest

/-- Record a found pair in the `volume_matchings` array
(`volume_matchings[index1] = index2; volume_matchings[index2] = index1`,
dwipreproc.py lines 1137-1138). -/
def markPair (vm : ℕ → ℕ) (i1 i2 : ℕ) : ℕ → ℕ :=
  fun j => if j = i1 then i2 else if j = i2 then i1 else vm j

/-- Body of the outer post-eddy matching loop (dwipreproc.py lines
1129-1144) for one value of index1: if index1 is still unpaired, scan
indices index1+1 .. n-1 for the first compatible unpaired partner and, when
found, mark both and append the pair. -/
def matchStep (n : ℕ) (matchFn : ℕ → ℕ → Bool) (st : MatchState)
    (i1 : ℕ) : MatchState :=
  if st.vm i1 = n then
    match firstUnpairedMatch n matchFn st.vm i1
        (List.range' (i1 + 1) (n - (i1 + 1))) with
    | some i2 => ⟨markPair st.vm i1 i2, st.pairs ++ [(i1, i2)]⟩
    | none => st
  else st

/-- The `volume_pairs` list produced by the post-eddy matching loop
(dwipreproc.py lines 1126-1144), for n volumes and the given admission
test. -/
def volumePairs (n : ℕ) (matchFn : ℕ → ℕ → Bool) : List (ℕ × ℕ) :=
  ((List.range n).foldl (matchStep n matchFn) ⟨fun _ => n, []⟩).pairs

/-- Flattened list of all volume indices occurring in a list of pairs. -/
def pairIndices (pairs : List (ℕ × ℕ)) : List ℕ :=
  pairs.flatMap fun p => [p.1, p.2]

/-- Outcome of the post-eddy reconciliation branch (dwipreproc.py lines
1146-1161): when the pair count is not n/2 the eddy output is written as-is,
otherwise explicit volume recombination is performed.  There is no error
branch. -/
inductive PostEddyOutcome
  | fallbackNonRecombined
  | explicitRecombination
  deriving DecidableEq

/-- Embedding of the branch `if len(volume_pairs) != int(dwi_num_volumes / 2)`
(dwipreproc.py line 1146). -/
def postEddyOutcome (n : ℕ) (pe : ℕ → PERow) (grad : ℕ → GradRow) :
    PostEddyOutcome :=
  if (volumePairs n (postEddyMatch pe grad)).length ≠ n / 2 then
    PostEddyOutcome.fallbackNonRecombined
  else
    PostEddyOutcome.explicitRecombination

end Dwipreproc

namespace Dwipreproc

/-- When the inner scan returns a partner i2, that partner came from the
candidate list, was unpaired at scan time, and passed the admission test. -/
theorem firstUnpairedMatch_some {n : ℕ} {matchFn : ℕ → ℕ → Bool}
    {vm : ℕ → ℕ} {i1 i2 : ℕ} :
    ∀ {l : List ℕ}, firstUnpairedMatch n matchFn vm i1 l = some i2 →
      i2 ∈ l ∧ vm i2 = n ∧ matchFn i1 i2 = true := by
  intro l
  induction l with
  | nil => intro h; simp [firstUnpairedMatch] at h
  | cons a rest ih =>
    intro h
    rw [firstUnpairedMatch] at h
    by_cases hvm : vm a = n
    · rw [if_pos hvm] at h
      by_cases hm : matchFn i1 a = true
      · rw [if_pos hm] at h
        obtain rfl : a = i2 := Option.some.inj h
        exact ⟨List.mem_cons_self a rest, hvm, hm⟩
      · rw [if_neg hm] at h
        obtain ⟨h1, h2, h3⟩ := ih h
        exact ⟨List.mem_cons_of_mem a h1, h2, h3⟩
    · rw [if_neg hvm] at h
      obtain ⟨h1, h2, h3⟩ := ih h
      exact ⟨List.mem_cons_of_mem a h1, h2, h3⟩

/-- Invariant of the post-eddy matching loop: every index occurring in the
pair list is marked in the `volume_matchings` array and below n, no index
occurs twice, each pair is ordered, and each pair passed the admission
test. -/
structure LoopInv (n : ℕ) (matchFn : ℕ → ℕ → Bool) (st : MatchState) : Prop where
  marked : ∀ x ∈ pairIndices st.pairs, st.vm x ≠ n
  bounded : ∀ x ∈ pairIndices st.pairs, x < n
  nodup : (pairIndices st.pairs).Nodup
  matched : ∀ p ∈ st.pairs, p.1 < p.2 ∧ matchFn p.1 p.2 = true

/-- Unfolding of pairIndices over an appended pair. -/
theorem pairIndices_append (ps : List (ℕ × ℕ)) (q : ℕ × ℕ) :
    pairIndices (ps ++ [q]) = pairIndices ps ++ [q.1, q.2] := by
  simp [pairIndices]

/-- One outer-loop step preserves the invariant. -/
theorem matchStep_inv {n : ℕ} {matchFn : ℕ → ℕ → Bool} {st : MatchState}
    {i1 : ℕ} (hi1 : i1 < n) (h : LoopInv n matchFn st) :
    LoopInv n matchFn (matchStep n matchFn st i1) := by
  unfold matchStep
  by_cases hvm : st.vm i1 = n
  · rw [if_pos hvm]
    cases hscan : firstUnpairedMatch n matchFn st.vm i1
        (List.range' (i1 + 1) (n - (i1 + 1))) with
    | none => exact h
    | some i2 =>
      obtain ⟨hmem, hvm2, hmf⟩ := firstUnpairedMatch_some hscan
      rw [List.mem_range'_1] at hmem
      have hlt : i1 < i2 := by omega
      have hi2n : i2 < n := by omega
      have hne : i1 ≠ i2 := Nat.ne_of_lt hlt
      have hnotold1 : i1 ∉ pairIndices st.pairs := fun hc => h.marked i1 hc hvm
      have hnotold2 : i2 ∉ pairIndices st.pairs := fun hc => h.marked i2 hc hvm2
      constructor
      all_goals simp only [pairIndices_append]
      · intro x hx
        rcases List.mem_append.mp hx with hold | hnew
        · have hx1 : x ≠ i1 := fun hc => hnotold1 (hc ▸ hold)
          have hx2 : x ≠ i2 := fun hc => hnotold2 (hc ▸ hold)
          simpa [markPair, hx1, hx2] using h.marked x hold
        · simp only [List.mem_cons, List.not_mem_nil, or_false] at hnew
          rcases hnew with rfl | rfl
          · have hmp : markPair st.vm x i2 x = i2 := by
              unfold markPair
              rw [if_pos rfl]
            rw [hmp]
            omega
          · have hmp : markPair st.vm i1 x x = i1 := by
              unfold markPair
              rw [if_neg (Ne.symm hne), if_pos rfl]
            rw [hmp]
            omega
      · intro x hx
        rcases List.mem_append.mp hx with hold | hnew
        · exact h.bounded x hold
        · simp only [List.mem_cons, List.not_mem_nil, or_false] at hnew
          rcases hnew with rfl | rfl
          · omega
          · omega
      · rw [List.nodup_append]
        refine ⟨h.nodup, by simp [hne], ?_⟩
        intro x hx hx2
        simp only [List.mem_cons, List.not_mem_nil, or_false] at hx2
        rcases hx2 with rfl | rfl
        · exact hnotold1 hx
        · exact hnotold2 hx
      · intro p hp
        rcases List.mem_append.mp hp with hold | hnew
        · exact h.matched p hold
        · simp only [List.mem_singleton] at hnew
          subst hnew
          exact ⟨hlt, hmf⟩
  · rw [if_neg hvm]
    exact h

/-- The full post-eddy matching loop establishes the invariant on its final
state. -/
theorem volumePairs_inv (n : ℕ) (matchFn : ℕ → ℕ → Bool) :
    LoopInv n matchFn ((List.range n).foldl (matchStep n matchFn) ⟨fun _ => n, []⟩) := by
  refine List.foldlRecOn (List.range n) (matchStep n matchFn) ⟨fun _ => n, []⟩
    ?_ ?_
  · exact ⟨by simp [pairIndices], by simp [pairIndices], by simp [pairIndices],
      by simp⟩
  · intro st hst i1 hi1
    exact matchStep_inv (List.mem_range.mp hi1) hst

/-- The flattened index list of k pairs has length 2k. -/
theorem pairIndices_length (ps : List (ℕ × ℕ)) :
    (pairIndices ps).length = 2 * ps.length := by
  induction ps with
  | nil => simp [pairIndices]
  | cons p rest ih =>
    simp only [pairIndices, List.flatMap_cons] at ih ⊢
    simp [ih]
    omega

/-- The matching loop can produce at most n / 2 pairs: the indices it uses
are distinct and all below n. -/
theorem volumePairs_length_le (n : ℕ) (matchFn : ℕ → ℕ → Bool) :
    (volumePairs n matchFn).length ≤ n / 2 := by
  have hinv := volumePairs_inv n matchFn
  have hsub : pairIndices (volumePairs n matchFn) ⊆ List.range n := by
    intro x hx
    exact List.mem_range.mpr (hinv.bounded x hx)
  have hlen : (pairIndices (volumePairs n matchFn)).length ≤ n := by
    have := (hinv.nodup.subperm hsub).length_le
    simpa using this
  rw [pairIndices_length] at hlen
  omega

end Dwipreproc

namespace Dwipreproc

/-- peSumZero is true exactly when all three per-axis sums vanish. -/
theorem peSumZero_eq_true_iff (p q : PERow) :
    peSumZero p q = true ↔
      (p.dx + q.dx = 0 ∧ p.dy + q.dy = 0 ∧ p.dz + q.dz = 0) := by
  unfold peSumZero
  by_cases h : p.dx + q.dx ≠ 0 ∨ p.dy + q.dy ≠ 0 ∨ p.dz + q.dz ≠ 0
  · rw [if_pos h]
    simp only [Bool.false_eq_true, false_iff]
    tauto
  · rw [if_neg h]
    push_neg at h
    simp only [true_iff]
    exact h

/-- C3: the post-eddy volume-pair matching loop never places the same volume
index in two different pairs (the flattened index list of the produced pairs
has no duplicates, so unmatched indices simply remain unpaired), and every
returned pair's per-axis phase-encoding direction components sum to exactly
zero on each of the three axes. -/
theorem C3_pairs_disjoint_pe_opposite (n : ℕ) (pe : ℕ → PERow)
    (grad : ℕ → GradRow) :
    (pairIndices (volumePairs n (postEddyMatch pe grad))).Nodup ∧
      (volumePairs n (postEddyMatch pe grad)).all
        (fun p => peSumZero (pe p.1) (pe p.2)) = true := by
  have hinv := volumePairs_inv n (postEddyMatch pe grad)
  refine ⟨hinv.nodup, ?_⟩
  rw [List.all_eq_true]
  intro p hp
  have hm := (hinv.matched p hp).2
  unfold postEddyMatch at hm
  exact (Bool.and_eq_true _ _).mp hm |>.1

/-- C4: explicit volume recombination is performed exactly when the number of
matched pairs equals floor(n / 2); the pair count can never exceed that
bound, and in every other case (count strictly below floor(n / 2)) the
script falls back to writing the eddy output as-is — the branch of
dwipreproc.py lines 1146-1161 has no error path. -/
theorem C4_recombination_iff_complete (n : ℕ) (pe : ℕ → PERow)
    (grad : ℕ → GradRow) :
    (volumePairs n (postEddyMatch pe grad)).length ≤ n / 2 ∧
      (postEddyOutcome n pe grad = PostEddyOutcome.explicitRecombination ↔
        (volumePairs n (postEddyMatch pe grad)).length = n / 2) ∧
      (postEddyOutcome n pe grad = PostEddyOutcome.fallbackNonRecombined ↔
        (volumePairs n (postEddyMatch pe grad)).length < n / 2) := by
  have hle := volumePairs_length_le n (postEddyMatch pe grad)
  refine ⟨hle, ?_, ?_⟩
  · unfold postEddyOutcome
    split_ifs with h
    · simp_all
    · simp_all
  · unfold postEddyOutcome
    split_ifs with h
    · simp_all
      omega
    · simp_all

end Dwipreproc

namespace Dwipreproc

/-- Three-component vector of rotated b-vector entries, as read from
`dwi_post_eddy.eddy_rotated_bvecs` (dwipreproc.py lines 1171-1174). -/
structure Vec3 where
  x : ℚ
  y : ℚ
  z : ℚ
  deriving DecidableEq

/-- Embedding of the per-pair combined-bvec computation of the recombination
loop (dwipreproc.py lines 1179-1204): per-axis sum of the two rotated bvecs,
its squared norm, the (dead, see C1) reversal branch guarded by
`norm2 < 0.0`, and normalization by 1/sqrt(norm2) unless norm2 is zero.
`sqrt` stands for the external `math.sqrt`. -/
def recombinePairBvec (sqrt : ℚ → ℚ) (bvecs : ℕ → Vec3) (p : ℕ × ℕ) : Vec3 :=
  let bvec_sum : Vec3 :=
    ⟨(bvecs p.1).x + (bvecs p.2).x,
     (bvecs p.1).y + (bvecs p.2).y,
     (bvecs p.1).z + (bvecs p.2).z⟩
  let norm2 : ℚ :=
    bvec_sum.x * bvec_sum.x + bvec_sum.y * bvec_sum.y + bvec_sum.z * bvec_sum.z
  let chosen : Vec3 × ℚ :=
    if norm2 < 0 then
      let bvec_diff : Vec3 :=
        ⟨(bvecs p.1).x - (bvecs p.2).x,
         (bvecs p.1).y - (bvecs p.2).y,
         (bvecs p.1).z - (bvecs p.2).z⟩
      (bvec_diff,
        bvec_diff.x * bvec_diff.x + bvec_diff.y * bvec_diff.y +
          bvec_diff.z * bvec_diff.z)
    else (bvec_sum, norm2)
  if chosen.2 ≠ 0 then
    let factor := 1 / sqrt chosen.2
    ⟨chosen.1.x * factor, chosen.1.y * factor, chosen.1.z * factor⟩
  else ⟨0, 0, 0⟩

/-- Modelled from the spec (section 4.3) for comparison with the code: "The
combined bvec is the normalized sum of the two corrected bvecs (or their
difference, if the sum has near-zero norm, signaling antiparallel storage)".
The difference branch is taken when the sum's squared norm is zero (the
weakest reading of near-zero). -/
def recombinePairBvecSpec (sqrt : ℚ → ℚ) (bvecs : ℕ → Vec3) (p : ℕ × ℕ) : Vec3 :=
  let bvec_sum : Vec3 :=
    ⟨(bvecs p.1).x + (bvecs p.2).x,
     (bvecs p.1).y + (bvecs p.2).y,
     (bvecs p.1).z + (bvecs p.2).z⟩
  let norm2 : ℚ :=
    bvec_sum.x * bvec_sum.x + bvec_sum.y * bvec_sum.y + bvec_sum.z * bvec_sum.z
  let chosen : Vec3 × ℚ :=
    if norm2 = 0 then
      let bvec_diff : Vec3 :=
        ⟨(bvecs p.1).x - (bvecs p.2).x,
         (bvecs p.1).y - (bvecs p.2).y,
         (bvecs p.1).z - (bvecs p.2).z⟩
      (bvec_diff,
        bvec_diff.x * bvec_diff.x + bvec_diff.y * bvec_diff.y +
          bvec_diff.z * bvec_diff.z)
    else (bvec_sum, norm2)
  if chosen.2 ≠ 0 then
    let factor := 1 / sqrt chosen.2
    ⟨chosen.1.x * factor, chosen.1.y * factor, chosen.1.z * factor⟩
  else ⟨0, 0, 0⟩

/-- Concrete antiparallel rotated-bvec table: volume 0 stores (1, 0, 0) and
volume 1 stores (-1, 0, 0). -/
def antiparallelBvecs : ℕ → Vec3 :=
  fun i => if i = 0 then ⟨1, 0, 0⟩ else ⟨-1, 0, 0⟩

/-- C1 (code bug): on the matched antiparallel pair (0, 1) of
`antiparallelBvecs`, for any square-root routine computing sqrt 4 = 2, the
code emits the combined bvec (0, 0, 0), while the spec's near-zero-norm
fallback emits the normalized per-axis difference (1, 0, 0).  The guard
`norm2 < 0.0` of dwipreproc.py line 1190 can never hold for a sum of
squares, so the difference branch the adjacent comment describes is dead
code and antiparallel pairs lose their direction. -/
theorem C1_antiparallel_fallback_dead (sqrt : ℚ → ℚ) (hsqrt : sqrt 4 = 2) :
    recombinePairBvec sqrt antiparallelBvecs (0, 1) = ⟨0, 0, 0⟩ ∧
      recombinePairBvecSpec sqrt antiparallelBvecs (0, 1) = ⟨1, 0, 0⟩ := by
  constructor
  · norm_num [recombinePairBvec, antiparallelBvecs]
  · norm_num [recombinePairBvecSpec, antiparallelBvecs, hsqrt]

/-- C1 witness: instantiating the square-root routine at a concrete function
with sqrt 4 = 2. -/
theorem C1_antiparallel_fallback_dead_witness :
    (fun q : ℚ => if q = 4 then (2 : ℚ) else 0) 4 = 2 ∧
      (recombinePairBvec (fun q : ℚ => if q = 4 then (2 : ℚ) else 0)
          antiparallelBvecs (0, 1) = ⟨0, 0, 0⟩ ∧
        recombinePairBvecSpec (fun q : ℚ => if q = 4 then (2 : ℚ) else 0)
          antiparallelBvecs (0, 1) = ⟨1, 0, 0⟩) :=
  ⟨by norm_num,
    C1_antiparallel_fallback_dead (fun q : ℚ => if q = 4 then (2 : ℚ) else 0)
      (by norm_num)⟩

/-- Embedding of `bvals_combined.append(0.5 * (grad[pair[0]][3] + grad[pair[1]][3]))`
(dwipreproc.py line 1205). -/
def combinedBval (grad : ℕ → GradRow) (p : ℕ × ℕ) : ℚ :=
  1/2 * ((grad p.1).b + (grad p.2).b)

/-- The `bvals_combined` list built by the recombination loop (dwipreproc.py
lines 1179-1205), one entry per matched pair. -/
def bvalsCombined (grad : ℕ → GradRow) (pairs : List (ℕ × ℕ)) : List ℚ :=
  pairs.map (combinedBval grad)

/-- C9: every entry of bvals_combined is the arithmetic mean of the pair's
two b-values, and for a pair with b-values 1000 and 1010 the combined
b-value is exactly 1005. -/
theorem C9_combined_bval_mean (grad : ℕ → GradRow) (pairs : List (ℕ × ℕ)) :
    bvalsCombined grad pairs =
        pairs.map (fun p => ((grad p.1).b + (grad p.2).b) / 2) ∧
      combinedBval
        (fun i => if i = 0 then ⟨0, 0, 1, 1000⟩ else ⟨0, 0, -1, 1010⟩)
        (0, 1) = 1005 := by
  constructor
  · unfold bvalsCombined
    refine List.map_congr_left ?_
    intro p _
    unfold combinedBval
    ring
  · norm_num [combinedBval]

end Dwipreproc

namespace Dwipreproc

/-- First phase-encoding axis with a nonzero component,
`pe_axis = [i for i, e in enumerate(config[0:3]) if e != 0][0]`
(dwipreproc.py line 1263). -/
def peAxisComponent (config : PERow) : ℚ :=
  if config.dx ≠ 0 then config.dx
  else if config.dy ≠ 0 then config.dy
  else config.dz

/-- Sign multiplier `-1.0 -mult if config[pe_axis] < 0` of dwipreproc.py
line 1264. -/
def signMultiplier (config : PERow) : ℚ :=
  if peAxisComponent config < 0 then -1 else 1

/-- Per-voxel value of the scaled field map fed to the spatial-gradient
filter: `mrcalc field_map config[3] -mult (-1.0 -mult)` (dwipreproc.py
lines 1266-1267).  Its derivative along the phase-encoding axis is computed
by the external `mrfilter - gradient`; that derivative value is the input
`d` of `jacobianValue` below. -/
def scaledFieldValue (config : PERow) (field : ℚ) : ℚ :=
  field * config.trt * signMultiplier config

/-- Per-voxel Jacobian term `mrcalc 1.0 field_deriv -add 0.0 -max`
(dwipreproc.py lines 1270-1271), for field-derivative value d. -/
def jacobianValue (d : ℚ) : ℚ :=
  max (1 + d) 0

/-- Per-voxel recombination weight
`mrcalc jacobian jacobian -mult` (dwipreproc.py lines 1273-1274). -/
def weightValue (d : ℚ) : ℚ :=
  jacobianValue d * jacobianValue d

/-- C5: for every value d of the (sign-adjusted, readout-time-scaled) field
derivative along the phase-encoding axis, the recombination weight equals
the square of max(0, 1 + d), and is therefore nonnegative — including for
arbitrarily negative d. -/
theorem C5_weight_clamped_square (d : ℚ) :
    weightValue d = (max 0 (1 + d)) ^ 2 ∧ 0 ≤ weightValue d := by
  constructor
  · unfold weightValue jacobianValue
    rw [max_comm, sq]
  · exact mul_self_nonneg _

end Dwipreproc

namespace Dwipreproc

/-- Embedding of `scheme_dirs_match` (dwipreproc.py lines 543-547): the
direction triples agree exactly on every zipped row pair. -/
def scheme_dirs_match (one two : List PERow) : Bool :=
  (one.zip two).all fun pr =>
    if pr.1.dx = pr.2.dx ∧ pr.1.dy = pr.2.dy ∧ pr.1.dz = pr.2.dz then true
    else false

/-- Embedding of `scheme_times_match` (dwipreproc.py lines 550-554): the
total readout times agree within 5e-3 on every zipped row pair. -/
def scheme_times_match (one two : List PERow) : Bool :=
  (one.zip two).all fun pr =>
    if |pr.1.trt - pr.2.trt| > 5/1000 then false else true

/-- The mutually exclusive -rpe_* acquisition-design flags (dwipreproc.py
lines 184-198). -/
inductive PEDesign
  | rpeNone
  | rpePair
  | rpeAll
  | rpeHeader
  deriving DecidableEq

/-- Warnings the phase-encoding reconciliation can emit (the `app.warn`
calls of dwipreproc.py lines 568-570 and 575-577). -/
inductive PEWarning
  | dirsMismatch
  | timesMismatch
  deriving DecidableEq

/-- Result of the phase-encoding reconciliation: warnings emitted, the
`overwrite_dwi_pe_scheme` flag, and the authoritative `dwi_pe_scheme`. -/
structure PEReconcile where
  warnings : List PEWarning
  overwrite : Bool
  dwi_pe_scheme : List PERow
  deriving DecidableEq

/-- Embedding of the reconciliation of header and command-line
phase-encoding information (dwipreproc.py lines 557-594).  `header` is the
scheme read from the DWI header (none when absent), `manualDirGiven` and
`manualTrtGiven` record whether -pe_dir and -readout_time were supplied,
and `manual` is the manually generated scheme.  Errors are the `app.error`
calls of lines 585-589. -/
def reconcilePE (design : PEDesign) (header : Option (List PERow))
    (manualDirGiven : Bool) (manualTrtGiven : Bool) (manual : List PERow) :
    Except String PEReconcile :=
  match header with
  | some hs =>
    let dirsDiffer := manualDirGiven && ! scheme_dirs_match hs manual
    let timesDiffer := manualTrtGiven && ! scheme_times_match hs manual
    let ow := dirsDiffer || timesDiffer
    Except.ok
      ⟨(if dirsDiffer then [PEWarning.dirsMismatch] else []) ++
          (if timesDiffer then [PEWarning.timesMismatch] else []),
        ow, if ow then manual else hs⟩
  | none =>
    if design = PEDesign.rpeHeader then
      Except.error "No phase encoding information found in DWI image header"
    else if ! manualDirGiven then
      Except.error
        "No phase encoding information provided either in header or at command-line"
    else
      Except.ok ⟨[], false, manual⟩

/-- C6: whenever a phase-encoding scheme is present in the DWI header, a
phase-encoding direction is also given on the command line, and the two
schemes' direction components differ on some volume
(scheme_dirs_match = false), the reconciliation emits the
direction-mismatch warning and adopts the command-line-derived scheme as
the authoritative dwi_pe_scheme — it neither aborts nor keeps the header
scheme. -/
theorem C6_commandline_wins (design : PEDesign) (hs manual : List PERow)
    (manualTrtGiven : Bool) (hdirs : scheme_dirs_match hs manual = false) :
    ∃ r : PEReconcile,
      reconcilePE design (some hs) true manualTrtGiven manual = Except.ok r ∧
        PEWarning.dirsMismatch ∈ r.warnings ∧
        r.overwrite = true ∧
        r.dwi_pe_scheme = manual := by
  refine ⟨_, rfl, ?_, ?_, ?_⟩ <;> simp [hdirs]

/-- C6 witness: header direction i = (1, 0, 0) against command-line
direction j = (0, 1, 0) on a one-volume scheme. -/
theorem C6_commandline_wins_witness :
    scheme_dirs_match [⟨1, 0, 0, 1/10⟩] [⟨0, 1, 0, 1/10⟩] = false ∧
      ∃ r : PEReconcile,
        reconcilePE PEDesign.rpeNone (some [⟨1, 0, 0, 1/10⟩]) true false
            [⟨0, 1, 0, 1/10⟩] = Except.ok r ∧
          PEWarning.dirsMismatch ∈ r.warnings ∧
          r.overwrite = true ∧
          r.dwi_pe_scheme = [⟨0, 1, 0, 1/10⟩] :=
  ⟨by norm_num [scheme_dirs_match],
    C6_commandline_wins PEDesign.rpeNone _ _ false
      (by norm_num [scheme_dirs_match])⟩

end Dwipreproc

namespace Dwipreproc

/-- Negation used when constructing the reversed half of the manual
phase-encoding scheme: `[(-i if i else 0.0) for i in line]` (dwipreproc.py
lines 480 and 530) — nonzero components are negated, zeros stay 0.0. -/
def negIfNonzero (x : ℚ) : ℚ :=
  if x ≠ 0 then -x else 0

/-- Default total readout time `auto_trt = 0.1` assumed when -readout_time
is absent (dwipreproc.py line 448). -/
def autoTrt : ℚ :=
  1/10

/-- Body of the -rpe_all gradient-matching outer loop (dwipreproc.py lines
503-518) for one first-half index: scan the second half for the first
unpaired volume with matching gradients; the for-else of lines 515-518
raises a fatal error when none exists. -/
def rpeAllStep (n : ℕ) (grad : ℕ → GradRow) (st : MatchState) (i1 : ℕ) :
    Except String MatchState :=
  if st.vm i1 = n then
    match firstUnpairedMatch n (fun a b => grads_match (grad a) (grad b))
        st.vm i1 (List.range' (n / 2) (n - n / 2)) with
    | some i2 => Except.ok ⟨markPair st.vm i1 i2, st.pairs ++ [(i1, i2)]⟩
    | none =>
      Except.error
        "Unable to determine matching reversed phase-encode direction volume for DWI volume"
  else Except.ok st

/-- The `grad_pairs` computation of the -rpe_all branch (dwipreproc.py lines
499-522), including the completeness check of lines 519-522. -/
def rpeAllPairs (grad : ℕ → GradRow) (n : ℕ) :
    Except String (List (ℕ × ℕ)) := do
  let st ← (List.range (n / 2)).foldlM (rpeAllStep n grad) ⟨fun _ => n, []⟩
  if st.pairs.length ≠ n / 2 then
    Except.error
      "Unable to determine complete matching DWI volume pairs for reversed phase-encode combination"
  else Except.ok st.pairs

/-- Embedding of the -rpe_all arm of the manual phase-encoding scheme
construction (dwipreproc.py lines 450-455, 494-533, 535-540): without
-pe_dir the script aborts (lines 537-540); with it, an odd volume count
aborts (lines 494-498) before the gradient pairing of lines 499-522 runs;
otherwise the manual scheme gives the first half of the volumes the manual
direction and the second half its negation, all with the chosen total
readout time. -/
def rpeAllManualScheme (manualPeDir : Option Vec3) (manualTrt : Option ℚ)
    (grad : ℕ → GradRow) (n : ℕ) : Except String (List PERow) :=
  match manualPeDir with
  | some dir =>
    let trt : ℚ :=
      match manualTrt with
      | some t => if t ≠ 0 then t else autoTrt
      | none => autoTrt
    if n % 2 ≠ 0 then
      Except.error
        "If using -rpe_all option, input image must contain an even number of volumes"
    else do
      let _ ← rpeAllPairs grad n
      Except.ok ((List.range n).map fun index =>
        if n / 2 ≤ index then
          ⟨negIfNonzero dir.x, negIfNonzero dir.y, negIfNonzero dir.z, trt⟩
        else ⟨dir.x, dir.y, dir.z, trt⟩)
  | none =>
    Except.error
      "If not using -rpe_header, phase encoding direction must be provided using the -pe_dir option"

/-- C7: a run invoked with -rpe_all whose input DWI series has an odd number
of volumes terminates with a fatal configuration error, for every gradient
table and every command-line direction/readout-time combination — the error
is raised before the gradient pairing (and hence before any recombination),
so no volume is silently dropped. -/
theorem C7_rpe_all_odd_fatal (manualPeDir : Option Vec3)
    (manualTrt : Option ℚ) (grad : ℕ → GradRow) (n : ℕ)
    (hodd : n % 2 = 1) :
    ∃ msg, rpeAllManualScheme manualPeDir manualTrt grad n =
      Except.error msg := by
  cases manualPeDir with
  | none => exact ⟨_, rfl⟩
  | some dir =>
    refine
      ⟨"If using -rpe_all option, input image must contain an even number of volumes",
        ?_⟩
    dsimp only [rpeAllManualScheme]
    rw [if_pos (show ¬ n % 2 = 0 by omega)]

/-- C7 witness: three volumes, direction (1, 0, 0), empty-table gradients. -/
theorem C7_rpe_all_odd_fatal_witness :
    (3 : ℕ) % 2 = 1 ∧
      ∃ msg, rpeAllManualScheme (some ⟨1, 0, 0⟩) none
        (fun _ => ⟨0, 0, 0, 0⟩) 3 = Except.error msg :=
  ⟨rfl, C7_rpe_all_odd_fatal (some ⟨1, 0, 0⟩) none (fun _ => ⟨0, 0, 0, 0⟩) 3 rfl⟩

end Dwipreproc
